import Mathlib

/-!
Verification of the Mergington High School activities service (src/src/app.py).

The service keeps a mapping from activity name to an activity record
(description, schedule, max_participants, participants).  It is backed either
by a MongoDB collection of documents (each document additionally carries the
activity `name` and a Mongo `_id`) or, when the database is unreachable, by
the in-memory dictionary `SAMPLE_ACTIVITIES`.  We embed the store as an
association list in insertion order (activity names are unique, per the
persisted layout), the database as a list of documents, and database
communication failures as explicit boolean flags: an exception raised by a
fetch or an update is modelled by the corresponding flag being set, since the
code catches every exception on those paths.
-/

/-- An activity record as served to clients: the value part of the
`SAMPLE_ACTIVITIES` dictionary entries in app.py. -/
structure Activity where
  description : String
  schedule : String
  max_participants : Nat
  participants : List String
deriving DecidableEq, Repr

/-- The activities mapping (Python dict, insertion ordered, unique keys),
embedded as an association list from activity name to record. -/
abbrev Store := List (String × Activity)

/-- A MongoDB document of the activities collection: the activity data plus
the `name` key and the Mongo-assigned `_id`. -/
structure DBDoc where
  _id : Nat
  name : String
  description : String
  schedule : String
  max_participants : Nat
  participants : List String
deriving DecidableEq, Repr

/-- The state the request handlers see: either a reachable database holding
`docs` (with flags recording whether the next fetch or update raises an
exception, which app.py catches), or the in-memory fallback store
(`activities_collection is None`). -/
inductive Backend where
  | db (docs : List DBDoc) (fetchFails : Bool) (updateFails : Bool)
  | memory (store : Store)
deriving DecidableEq, Repr

/-- `SAMPLE_ACTIVITIES` from app.py, lines 41-99, in source order. -/
def SAMPLE_ACTIVITIES : Store :=
  [ ("Chess Club",
     { description := "Learn strategies and compete in chess tournaments",
       schedule := "Fridays, 3:30 PM - 5:00 PM",
       max_participants := 12,
       participants := ["michael@mergington.edu", "daniel@mergington.edu"] }),
    ("Programming Class",
     { description := "Learn programming fundamentals and build software projects",
       schedule := "Tuesdays and Thursdays, 3:30 PM - 4:30 PM",
       max_participants := 20,
       participants := ["emma@mergington.edu", "sophia@mergington.edu"] }),
    ("Gym Class",
     { description := "Physical education and sports activities",
       schedule := "Mondays, Wednesdays, Fridays, 2:00 PM - 3:00 PM",
       max_participants := 30,
       participants := ["john@mergington.edu", "olivia@mergington.edu"] }),
    ("Soccer Team",
     { description := "Join the school soccer team and compete in local leagues",
       schedule := "Tuesdays and Thursdays, 4:00 PM - 5:30 PM",
       max_participants := 22,
       participants := ["lucas@mergington.edu", "mia@mergington.edu"] }),
    ("Basketball Club",
     { description := "Practice basketball skills and play friendly matches",
       schedule := "Wednesdays, 3:30 PM - 5:00 PM",
       max_participants := 15,
       participants := ["liam@mergington.edu", "ava@mergington.edu"] }),
    ("Art Club",
     { description := "Explore painting, drawing, and other visual arts",
       schedule := "Mondays, 3:30 PM - 5:00 PM",
       max_participants := 18,
       participants := ["noah@mergington.edu", "isabella@mergington.edu"] }),
    ("Drama Society",
     { description := "Participate in acting, stage production, and school plays",
       schedule := "Thursdays, 4:00 PM - 5:30 PM",
       max_participants := 20,
       participants := ["ethan@mergington.edu", "charlotte@mergington.edu"] }),
    ("Debate Club",
     { description := "Develop public speaking and argumentation skills",
       schedule := "Fridays, 4:00 PM - 5:30 PM",
       max_participants := 16,
       participants := ["amelia@mergington.edu", "jack@mergington.edu"] }),
    ("Math Olympiad",
     { description := "Prepare for math competitions and solve challenging problems",
       schedule := "Wednesdays, 3:30 PM - 5:00 PM",
       max_participants := 14,
       participants := ["benjamin@mergington.edu", "harper@mergington.edu"] }) ]

/-- Python dict lookup `activities[activity_name]` (with the preceding
`activity_name in activities` membership test): first entry with the key. -/
def findActivity (s : Store) (activity_name : String) : Option Activity :=
  match s with
  | [] => none
  | (m, a) :: rest => if m = activity_name then some a else findActivity rest activity_name

/-- The activity record a database document is served as: `name` and `_id`
removed (app.py lines 158-161). -/
def activityOfDoc (d : DBDoc) : Activity :=
  { description := d.description,
    schedule := d.schedule,
    max_participants := d.max_participants,
    participants := d.participants }

/-- `get_activities_from_db` (app.py lines 150-169): from the database,
return the documents reshaped as a name-keyed mapping with `name` and `_id`
stripped; on a fetch exception return `SAMPLE_ACTIVITIES` (which is never
mutated while the database is in use); with no database, return the current
in-memory store. -/
def get_activities_from_db (b : Backend) : Store :=
  match b with
  | .db docs fetchFails _ =>
      if fetchFails then SAMPLE_ACTIVITIES
      else docs.map (fun d => (d.name, activityOfDoc d))
  | .memory store => store

/-- `update_one({name: activity_name}, {$addToSet: {participants: email}})`:
the first document whose name matches gets `email` appended to its
participant array if absent; the returned flag is `modified_count > 0`. -/
def dbAddToSet (docs : List DBDoc) (activity_name email : String) :
    Bool × List DBDoc :=
  match docs with
  | [] => (false, [])
  | d :: rest =>
      if d.name = activity_name then
        if email ∈ d.participants then (false, d :: rest)
        else (true, { d with participants := d.participants ++ [email] } :: rest)
      else
        let r := dbAddToSet rest activity_name email
        (r.1, d :: r.2)

/-- The in-memory fallback branch of `update_activity_in_db` (app.py lines
184-190): if the activity exists and the email is not yet a participant,
append it and report `true`; otherwise report `false`. -/
def memAdd (store : Store) (activity_name email : String) : Bool × Store :=
  match store with
  | [] => (false, [])
  | (m, a) :: rest =>
      if m = activity_name then
        if email ∈ a.participants then (false, (m, a) :: rest)
        else (true, (m, { a with participants := a.participants ++ [email] }) :: rest)
      else
        let r := memAdd rest activity_name email
        (r.1, (m, a) :: r.2)

/-- `update_activity_in_db` (app.py lines 172-190): against the database,
`$addToSet` on the matching document, with any exception caught and turned
into `false`; against the fallback store, `memAdd`.  Returns the reported
flag together with the resulting backend state. -/
def update_activity_in_db (b : Backend) (activity_name email : String) :
    Bool × Backend :=
  match b with
  | .db docs fetchFails updateFails =>
      if updateFails then (false, .db docs fetchFails updateFails)
      else
        let r := dbAddToSet docs activity_name email
        (r.1, .db r.2 fetchFails updateFails)
  | .memory store =>
      let r := memAdd store activity_name email
      (r.1, .memory r.2)

/-- Outcome of a signup request: a 200 body with a message, or an
HTTPException with a status code and detail string. -/
inductive SignupResult where
  | ok (message : String)
  | error (status : Nat) (detail : String)
deriving DecidableEq, Repr

/-- The confirmation message `f"Signed up {email} for {activity_name}"`. -/
def signupMessage (activity_name email : String) : String :=
  "Signed up " ++ email ++ " for " ++ activity_name

/-- `signup_for_activity` (app.py lines 204-231): fetch the activities,
check existence, duplicate membership and capacity in that order, then
delegate to `update_activity_in_db`; a `false` report becomes a 500. -/
def signup_for_activity (b : Backend) (activity_name email : String) :
    SignupResult × Backend :=
  let activities := get_activities_from_db b
  match findActivity activities activity_name with
  | none => (.error 404 "Activity not found", b)
  | some activity =>
      if email ∈ activity.participants then
        (.error 400 "Student is already signed up", b)
      else if activity.participants.length ≥ activity.max_participants then
        (.error 400 "Activity is full", b)
      else
        let r := update_activity_in_db b activity_name email
        if r.1 then (.ok (signupMessage activity_name email), r.2)
        else (.error 500 "Failed to sign up for activity", r.2)

/-- The documents the startup seeding inserts for a store (app.py lines
122-127: `doc = {"name": name, **data}`), with Mongo assigning ids from `i`. -/
def docsOfStore : Store → Nat → List DBDoc
  | [], _ => []
  | (n, a) :: rest, i =>
      { _id := i, name := n, description := a.description, schedule := a.schedule,
        max_participants := a.max_participants, participants := a.participants }
        :: docsOfStore rest (i + 1)

/-- The data-model invariant for one activity: no duplicate participant
email, and the roster within capacity. -/
def activityInvariant (a : Activity) : Prop :=
  a.participants.Nodup ∧ a.participants.length ≤ a.max_participants

instance (a : Activity) : Decidable (activityInvariant a) := by
  unfold activityInvariant; infer_instance

/-- The data-model invariant over a whole store. -/
def storeInvariant (s : Store) : Prop :=
  ∀ p ∈ s, activityInvariant p.2

instance (s : Store) : Decidable (storeInvariant s) := by
  unfold storeInvariant; infer_instance

/-- The invariant over a backend state: on the database side over the stored
documents, on the fallback side over the in-memory store. -/
def backendInvariant : Backend → Prop
  | .db docs _ _ => ∀ d ∈ docs, d.participants.Nodup ∧
      d.participants.length ≤ d.max_participants
  | .memory s => storeInvariant s

lemma append_singleton_ne (l : List String) (e : String) : l ++ [e] ≠ l := by
  intro h
  have h' := congrArg List.length h
  simp at h'

lemma docsOfStore_map (s : Store) (i : Nat) :
    (docsOfStore s i).map (fun d => (d.name, activityOfDoc d)) = s := by
  induction s generalizing i with
  | nil => rfl
  | cons hd tl ih =>
      obtain ⟨n, a⟩ := hd
      simp only [docsOfStore, List.map_cons, ih]
      rfl

/-- Claim C5: a signup for an activity name absent from the fetched mapping
fails with 404 "Activity not found" and leaves the backend unchanged. -/
theorem signup_not_found (b : Backend) (activity_name email : String)
    (h : findActivity (get_activities_from_db b) activity_name = none) :
    signup_for_activity b activity_name email =
      (.error 404 "Activity not found", b) := by
  simp [signup_for_activity, h]

theorem signup_not_found_witness :
    findActivity (get_activities_from_db (.memory SAMPLE_ACTIVITIES)) "Quantum Club" = none ∧
    signup_for_activity (.memory SAMPLE_ACTIVITIES) "Quantum Club" "new@mergington.edu" =
      (.error 404 "Activity not found", .memory SAMPLE_ACTIVITIES) :=
  ⟨by decide, signup_not_found (.memory SAMPLE_ACTIVITIES) "Quantum Club"
    "new@mergington.edu" (by decide)⟩

/-- Claim C3: a signup with an email already among the activity's
participants fails with 400 "Student is already signed up" and leaves the
backend (hence the participant count) unchanged. -/
theorem signup_duplicate_rejected (b : Backend) (activity_name email : String)
    (a : Activity)
    (hf : findActivity (get_activities_from_db b) activity_name = some a)
    (hmem : email ∈ a.participants) :
    signup_for_activity b activity_name email =
      (.error 400 "Student is already signed up", b) := by
  simp [signup_for_activity, hf, hmem]

theorem signup_duplicate_rejected_witness :
    "michael@mergington.edu" ∈ ["michael@mergington.edu", "daniel@mergington.edu"] ∧
    signup_for_activity (.memory SAMPLE_ACTIVITIES) "Chess Club" "michael@mergington.edu" =
      (.error 400 "Student is already signed up", .memory SAMPLE_ACTIVITIES) :=
  ⟨by decide, signup_duplicate_rejected (.memory SAMPLE_ACTIVITIES) "Chess Club"
    "michael@mergington.edu"
    { description := "Learn strategies and compete in chess tournaments",
      schedule := "Fridays, 3:30 PM - 5:00 PM",
      max_participants := 12,
      participants := ["michael@mergington.edu", "daniel@mergington.edu"] }
    (by decide) (by decide)⟩

/-- Claim C4: a signup for an existing activity with a fresh email but no
free capacity fails with 400 "Activity is full" and leaves the backend
unchanged. -/
theorem signup_full_rejected (b : Backend) (activity_name email : String)
    (a : Activity)
    (hf : findActivity (get_activities_from_db b) activity_name = some a)
    (hmem : email ∉ a.participants)
    (hcap : a.participants.length ≥ a.max_participants) :
    signup_for_activity b activity_name email =
      (.error 400 "Activity is full", b) := by
  simp [signup_for_activity, hf, hmem, hcap]

theorem signup_full_rejected_witness :
    (["a@mergington.edu", "b@mergington.edu"].length ≥ 2) ∧
    signup_for_activity
      (.memory [("Knitting Circle",
        { description := "Knitting", schedule := "Mondays", max_participants := 2,
          participants := ["a@mergington.edu", "b@mergington.edu"] })])
      "Knitting Circle" "new@mergington.edu" =
      (.error 400 "Activity is full",
       .memory [("Knitting Circle",
        { description := "Knitting", schedule := "Mondays", max_participants := 2,
          participants := ["a@mergington.edu", "b@mergington.edu"] })]) :=
  ⟨by decide, signup_full_rejected _ "Knitting Circle" "new@mergington.edu"
    { description := "Knitting", schedule := "Mondays", max_participants := 2,
      participants := ["a@mergington.edu", "b@mergington.edu"] }
    (by decide) (by decide) (by decide)⟩

/-- Claim C8: listing activities is a total function of the backend state:
with no database it returns the current in-memory store, on a fetch failure
it returns the fallback sample snapshot, and on a reachable database it
returns the documents reshaped into a name-keyed mapping. -/
theorem get_activities_never_fails :
    (∀ s : Store, get_activities_from_db (.memory s) = s) ∧
    (∀ (docs : List DBDoc) (uf : Bool),
      get_activities_from_db (.db docs true uf) = SAMPLE_ACTIVITIES) ∧
    (∀ (docs : List DBDoc) (uf : Bool),
      get_activities_from_db (.db docs false uf) =
        docs.map (fun d => (d.name, activityOfDoc d))) := by
  refine ⟨fun s => rfl, fun docs uf => rfl, fun docs uf => rfl⟩

/-- Claim C9: for a database seeded with exactly the data of a store `s`
(documents carrying `name` and arbitrary `_id` values on top of the activity
fields), listing via the database branch yields exactly the same mapping as
listing via the in-memory branch over `s`: same keys, same four fields,
`name` and `_id` stripped. -/
theorem db_and_memory_listing_same_shape (s : Store) (i : Nat) (uf : Bool) :
    get_activities_from_db (.db (docsOfStore s i) false uf) =
      get_activities_from_db (.memory s) := by
  simp [get_activities_from_db, docsOfStore_map]

lemma memAdd_found (s : Store) (activity_name email : String) :
    ∀ a, findActivity s activity_name = some a → email ∉ a.participants →
      (memAdd s activity_name email).1 = true ∧
      findActivity (memAdd s activity_name email).2 activity_name =
        some { a with participants := a.participants ++ [email] } := by
  induction s with
  | nil => intro a hf _; simp [findActivity] at hf
  | cons hd rest ih =>
      intro a hf he
      obtain ⟨m, a0⟩ := hd
      by_cases hm : m = activity_name
      · have ha : a0 = a := by simpa [findActivity, hm] using hf
        subst ha
        simp [memAdd, hm, he, findActivity]
      · have hf' : findActivity rest activity_name = some a := by
          simpa [findActivity, hm] using hf
        obtain ⟨h1, h2⟩ := ih a hf' he
        simp [memAdd, hm, findActivity, h1, h2]

/-- Claim C2: for an activity present in the store, a fresh email and free
capacity, signup succeeds with the confirmation message
"Signed up {email} for {activity_name}" and the activity's participant list
grows by exactly the one new email. -/
theorem signup_success_adds_one (s : Store) (activity_name email : String)
    (a : Activity)
    (hf : findActivity s activity_name = some a)
    (hmem : email ∉ a.participants)
    (hcap : a.participants.length < a.max_participants) :
    signup_for_activity (.memory s) activity_name email =
      (.ok (signupMessage activity_name email),
       .memory (memAdd s activity_name email).2) ∧
    findActivity (memAdd s activity_name email).2 activity_name =
      some { a with participants := a.participants ++ [email] } ∧
    (a.participants ++ [email]).length = a.participants.length + 1 := by
  obtain ⟨h1, h2⟩ := memAdd_found s activity_name email a hf hmem
  have hc : ¬ a.participants.length ≥ a.max_participants := Nat.not_le.mpr hcap
  refine ⟨?_, h2, by simp⟩
  simp [signup_for_activity, get_activities_from_db, hf, hmem, hc,
    update_activity_in_db, h1]

theorem signup_success_adds_one_witness :
    ["michael@mergington.edu", "daniel@mergington.edu"].length < 12 ∧
    signup_for_activity (.memory SAMPLE_ACTIVITIES) "Chess Club" "new@mergington.edu" =
      (.ok (signupMessage "Chess Club" "new@mergington.edu"),
       .memory (memAdd SAMPLE_ACTIVITIES "Chess Club" "new@mergington.edu").2) ∧
    findActivity (memAdd SAMPLE_ACTIVITIES "Chess Club" "new@mergington.edu").2
        "Chess Club" =
      some { description := "Learn strategies and compete in chess tournaments",
             schedule := "Fridays, 3:30 PM - 5:00 PM",
             max_participants := 12,
             participants := ["michael@mergington.edu", "daniel@mergington.edu",
               "new@mergington.edu"] } :=
  ⟨by decide,
    ((signup_success_adds_one SAMPLE_ACTIVITIES "Chess Club" "new@mergington.edu"
      { description := "Learn strategies and compete in chess tournaments",
        schedule := "Fridays, 3:30 PM - 5:00 PM",
        max_participants := 12,
        participants := ["michael@mergington.edu", "daniel@mergington.edu"] }
      rfl (by decide) (by decide)).1),
    ((signup_success_adds_one SAMPLE_ACTIVITIES "Chess Club" "new@mergington.edu"
      { description := "Learn strategies and compete in chess tournaments",
        schedule := "Fridays, 3:30 PM - 5:00 PM",
        max_participants := 12,
        participants := ["michael@mergington.edu", "daniel@mergington.edu"] }
      rfl (by decide) (by decide)).2.1)⟩

lemma memAdd_preserves_invariant (s : Store) (activity_name email : String) :
    ∀ a, storeInvariant s → findActivity s activity_name = some a →
      a.participants.length < a.max_participants →
      storeInvariant (memAdd s activity_name email).2 := by
  induction s with
  | nil => intro a _ hf _; simp [findActivity] at hf
  | cons hd rest ih =>
      intro a hinv hf hcap
      obtain ⟨m, a0⟩ := hd
      have hinv0 : activityInvariant a0 := hinv (m, a0) (List.mem_cons_self _ _)
      have hinvrest : storeInvariant rest := fun p hp => hinv p (List.mem_cons_of_mem _ hp)
      by_cases hm : m = activity_name
      · have ha : a0 = a := by simpa [findActivity, hm] using hf
        subst ha
        by_cases he : email ∈ a0.participants
        · simpa [memAdd, hm, he] using hinv
        · intro p hp
          simp only [memAdd, hm, if_true, he, if_false] at hp
          rcases List.mem_cons.mp hp with rfl | hp
          · refine ⟨?_, ?_⟩
            · simpa [List.nodup_append] using ⟨hinv0.1, he⟩
            · simpa using Nat.succ_le_of_lt hcap
          · exact hinvrest p hp
      · have hf' : findActivity rest activity_name = some a := by
          simpa [findActivity, hm] using hf
        intro p hp
        simp only [memAdd, hm, if_false] at hp
        rcases List.mem_cons.mp hp with rfl | hp
        · exact hinv0
        · exact ih a hinvrest hf' hcap p hp

/-- Claim C1: the data-model invariant (participant count within capacity,
no duplicate participant email) holds for the seeded sample data and is
preserved by every signup operation in the single-request fallback model. -/
theorem seed_and_signup_preserve_invariant :
    storeInvariant SAMPLE_ACTIVITIES ∧
    ∀ (s : Store) (activity_name email : String), storeInvariant s →
      backendInvariant (signup_for_activity (.memory s) activity_name email).2 := by
  constructor
  · decide
  · intro s activity_name email hinv
    cases hf : findActivity (get_activities_from_db (.memory s)) activity_name with
    | none => simpa [signup_for_activity, hf, backendInvariant] using hinv
    | some a =>
        by_cases he : email ∈ a.participants
        · simpa [signup_for_activity, hf, he, backendInvariant] using hinv
        · by_cases hc : a.participants.length ≥ a.max_participants
          · simpa [signup_for_activity, hf, he, hc, backendInvariant] using hinv
          · have hcap : a.participants.length < a.max_participants := Nat.not_le.mp hc
            have key := memAdd_preserves_invariant s activity_name email a hinv hf hcap
            by_cases hr : (memAdd s activity_name email).1
            · simpa [signup_for_activity, hf, he, hc, update_activity_in_db, hr,
                backendInvariant] using key
            · simpa [signup_for_activity, hf, he, hc, update_activity_in_db, hr,
                backendInvariant] using key

theorem seed_and_signup_preserve_invariant_witness :
    storeInvariant SAMPLE_ACTIVITIES ∧
    backendInvariant
      (signup_for_activity (.memory SAMPLE_ACTIVITIES) "Chess Club"
        "new@mergington.edu").2 :=
  ⟨seed_and_signup_preserve_invariant.1,
   seed_and_signup_preserve_invariant.2 SAMPLE_ACTIVITIES "Chess Club"
     "new@mergington.edu" (by decide)⟩

/-- Claim C10: a successful in-memory add changes exactly the named
activity's participant list (the new email appended at the end) and nothing
else: every activity before and after it in the store is untouched, and the
named activity keeps its description, schedule and max_participants. -/
theorem memAdd_frame_effect (s : Store) (activity_name email : String)
    (h : (memAdd s activity_name email).1 = true) :
    ∃ pre a post,
      s = pre ++ (activity_name, a) :: post ∧
      (∀ p ∈ pre, p.1 ≠ activity_name) ∧
      email ∉ a.participants ∧
      (memAdd s activity_name email).2 =
        pre ++ (activity_name, { a with participants := a.participants ++ [email] })
          :: post := by
  induction s with
  | nil => simp [memAdd] at h
  | cons hd rest ih =>
      obtain ⟨m, a0⟩ := hd
      by_cases hm : m = activity_name
      · subst hm
        by_cases he : email ∈ a0.participants
        · simp [memAdd, he] at h
        · exact ⟨[], a0, rest, by simp, by simp, he, by simp [memAdd, he]⟩
      · have h' : (memAdd rest activity_name email).1 = true := by
          simpa [memAdd, hm] using h
        obtain ⟨pre, a, post, hs, hpre, he, hsnd⟩ := ih h'
        refine ⟨(m, a0) :: pre, a, post, by simp [hs], ?_, he, ?_⟩
        · intro p hp
          rcases List.mem_cons.mp hp with rfl | hp
          · simpa using hm
          · exact hpre p hp
        · simp [memAdd, hm, hsnd]

theorem memAdd_frame_effect_witness :
    (memAdd SAMPLE_ACTIVITIES "Art Club" "new@mergington.edu").1 = true ∧
    ∃ pre a post,
      SAMPLE_ACTIVITIES = pre ++ ("Art Club", a) :: post ∧
      (∀ p ∈ pre, p.1 ≠ "Art Club") ∧
      "new@mergington.edu" ∉ a.participants ∧
      (memAdd SAMPLE_ACTIVITIES "Art Club" "new@mergington.edu").2 =
        pre ++ ("Art Club",
          { a with participants := a.participants ++ ["new@mergington.edu"] })
          :: post :=
  ⟨by decide,
   memAdd_frame_effect SAMPLE_ACTIVITIES "Art Club" "new@mergington.edu" (by decide)⟩

lemma dbAddToSet_changed_iff (docs : List DBDoc) (activity_name email : String) :
    (dbAddToSet docs activity_name email).1 = true ↔
      (dbAddToSet docs activity_name email).2 ≠ docs := by
  induction docs with
  | nil => simp [dbAddToSet]
  | cons d rest ih =>
      by_cases hn : d.name = activity_name
      · by_cases he : email ∈ d.participants
        · simp [dbAddToSet, hn, he]
        · simp only [dbAddToSet, hn, if_true, he, if_false, ne_eq, true_iff]
          intro hEq
          rw [List.cons.injEq] at hEq
          exact append_singleton_ne d.participants email
            (congrArg DBDoc.participants hEq.1)
      · simp [dbAddToSet, hn, List.cons.injEq, ih]

lemma memAdd_changed_iff (s : Store) (activity_name email : String) :
    (memAdd s activity_name email).1 = true ↔
      (memAdd s activity_name email).2 ≠ s := by
  induction s with
  | nil => simp [memAdd]
  | cons hd rest ih =>
      obtain ⟨m, a⟩ := hd
      by_cases hm : m = activity_name
      · by_cases he : email ∈ a.participants
        · simp [memAdd, hm, he]
        · simp only [memAdd, hm, if_true, he, if_false, ne_eq, true_iff]
          intro hEq
          rw [List.cons.injEq, Prod.mk.injEq] at hEq
          exact append_singleton_ne a.participants email
            (congrArg Activity.participants hEq.1.2)
      · simp [memAdd, hm, List.cons.injEq, Prod.mk.injEq, ih]

/-- Claim C7: `update_activity_in_db` is a total function (every exception
on the database path is caught): an update-side communication failure
degrades to reporting `false` with the state untouched, and the reported
boolean is `true` exactly when the backing store changed. -/
theorem update_reports_change (b : Backend) (activity_name email : String) :
    ((update_activity_in_db b activity_name email).1 = true ↔
      (update_activity_in_db b activity_name email).2 ≠ b) ∧
    (∀ docs ff, b = .db docs ff true →
      update_activity_in_db b activity_name email = (false, b)) := by
  constructor
  · cases b with
    | db docs ff uf =>
        cases uf with
        | false =>
            simpa [update_activity_in_db, Backend.db.injEq] using
              dbAddToSet_changed_iff docs activity_name email
        | true => simp [update_activity_in_db]
    | memory s =>
        simpa [update_activity_in_db, Backend.memory.injEq] using
          memAdd_changed_iff s activity_name email
  · rintro docs ff rfl
    simp [update_activity_in_db]

theorem update_reports_change_witness :
    ((update_activity_in_db (.db [] false true) "Chess Club" "x@mergington.edu").1 = true ↔
      (update_activity_in_db (.db [] false true) "Chess Club" "x@mergington.edu").2 ≠
        .db [] false true) ∧
    update_activity_in_db (.db [] false true) "Chess Club" "x@mergington.edu" =
      (false, .db [] false true) :=
  ⟨(update_reports_change (.db [] false true) "Chess Club" "x@mergington.edu").1,
   (update_reports_change (.db [] false true) "Chess Club" "x@mergington.edu").2
     [] false rfl⟩

/-- Claim C6: a request past the not-found, duplicate and capacity checks
succeeds exactly when the store's add reports a change, and fails with 500
otherwise; every signup lands in exactly one of the five outcomes (success,
404 not found, 400 already signed up, 400 full, 500 persistence failure),
which are pairwise distinct. -/
theorem signup_outcomes (b : Backend) (activity_name email : String) :
    (∀ a, findActivity (get_activities_from_db b) activity_name = some a →
      email ∉ a.participants →
      a.participants.length < a.max_participants →
      signup_for_activity b activity_name email =
        (if (update_activity_in_db b activity_name email).1 then
           SignupResult.ok (signupMessage activity_name email)
         else SignupResult.error 500 "Failed to sign up for activity",
         (update_activity_in_db b activity_name email).2)) ∧
    ((signup_for_activity b activity_name email).1 =
        .ok (signupMessage activity_name email) ∨
     (signup_for_activity b activity_name email).1 = .error 404 "Activity not found" ∨
     (signup_for_activity b activity_name email).1 =
        .error 400 "Student is already signed up" ∨
     (signup_for_activity b activity_name email).1 = .error 400 "Activity is full" ∨
     (signup_for_activity b activity_name email).1 =
        .error 500 "Failed to sign up for activity") ∧
    List.Pairwise (· ≠ ·)
      [SignupResult.ok (signupMessage activity_name email),
       .error 404 "Activity not found",
       .error 400 "Student is already signed up",
       .error 400 "Activity is full",
       .error 500 "Failed to sign up for activity"] := by
  refine ⟨?_, ?_, ?_⟩
  · intro a hf he hcap
    have hc : ¬ a.participants.length ≥ a.max_participants := Nat.not_le.mpr hcap
    by_cases hr : (update_activity_in_db b activity_name email).1
    · simp [signup_for_activity, hf, he, hc, hr]
    · simp [signup_for_activity, hf, he, hc, hr]
  · cases hf : findActivity (get_activities_from_db b) activity_name with
    | none =>
        right; left
        simp [signup_for_activity, hf]
    | some a =>
        by_cases he : email ∈ a.participants
        · right; right; left
          simp [signup_for_activity, hf, he]
        · by_cases hc : a.participants.length ≥ a.max_participants
          · right; right; right; left
            simp [signup_for_activity, hf, he, hc]
          · by_cases hr : (update_activity_in_db b activity_name email).1
            · left
              simp [signup_for_activity, hf, he, hc, hr]
            · right; right; right; right
              simp [signup_for_activity, hf, he, hc, hr]
  · simp [List.pairwise_cons]

theorem signup_outcomes_witness :
    "new@mergington.edu" ∉ ["michael@mergington.edu", "daniel@mergington.edu"] ∧
    signup_for_activity (.memory SAMPLE_ACTIVITIES) "Chess Club" "new@mergington.edu" =
      (if (update_activity_in_db (.memory SAMPLE_ACTIVITIES) "Chess Club"
            "new@mergington.edu").1 then
         SignupResult.ok (signupMessage "Chess Club" "new@mergington.edu")
       else SignupResult.error 500 "Failed to sign up for activity",
       (update_activity_in_db (.memory SAMPLE_ACTIVITIES) "Chess Club"
         "new@mergington.edu").2) :=
  ⟨by decide,
   (signup_outcomes (.memory SAMPLE_ACTIVITIES) "Chess Club" "new@mergington.edu").1
     { description := "Learn strategies and compete in chess tournaments",
       schedule := "Fridays, 3:30 PM - 5:00 PM",
       max_participants := 12,
       participants := ["michael@mergington.edu", "daniel@mergington.edu"] }
     rfl (by decide) (by decide)⟩
